import Mathlib

/-!
Verification development for the PyDiagram diagram-editing engine.

The development shallowly embeds the core subsystems of the repository:
the element/document data model with its observer-notification contract
(`model/base.py`, `model/shapes.py`, `model/connectors.py`), the
command-based undo/redo engine (`controller/commands.py`), and the
self-contained drawio codec (`services/file_service.py`).

Conventions of the embedding:
- Python `str` is Lean `String`; the textual operations the code relies on
  (`split`, `split(sep, 1)`, `strip`, substring membership, `startswith`)
  are re-implemented over character lists so that concrete instances
  evaluate inside the kernel.
- Python `dict` (insertion ordered) is an association list with
  update-in-place / append-at-end semantics (`dictSet`).
- Numeric attributes (coordinates, sizes, grid size) are modelled as `Int`.
  The claims under study only compare these values and test their sign;
  no property hinges on floating-point rounding.
- `notify_observers` calls are made explicit: every mutating operation
  returns the new state together with the list of notifications it issued.
  Constructor-time notifications are dropped because a freshly constructed
  entity has an empty observer list, so they are unobservable.
- XML / base64 / deflate transport is abstracted: the codec is modelled on
  the structural content of the documents; parse or decompression failures
  of the transport are modelled as explicit error cases of the input type.
-/

namespace PyDiagram

/-- Python-style whitespace test for `str.strip` (ASCII whitespace). -/
def isPySpace (c : Char) : Bool :=
  c == ' ' || c == '\t' || c == '\n' || c == '\r' || c == '\x0b' || c == '\x0c'

/-- Characters of `s.strip()`: drop whitespace at both ends. -/
def stripChars (l : List Char) : List Char :=
  ((l.dropWhile isPySpace).reverse.dropWhile isPySpace).reverse

/-- Python `s.strip()`. -/
def pyStrip (s : String) : String := ⟨stripChars s.data⟩

/-- Split a character list on a separator character, Python `str.split(sep)`
    semantics: splitting the empty string yields one empty field, and
    adjacent separators yield empty fields. -/
def splitChars (sep : Char) : List Char → List (List Char)
  | [] => [[]]
  | c :: rest =>
    let r := splitChars sep rest
    if c = sep then [] :: r
    else
      match r with
      | [] => [[c]]
      | h :: t => (c :: h) :: t

/-- Python `s.split(sep)` for a one-character separator. -/
def pySplit (sep : Char) (s : String) : List String :=
  (splitChars sep s.data).map (fun l => ⟨l⟩)

/-- Characters before and after the first occurrence of `sep`, if any. -/
def splitOnceChars (sep : Char) : List Char → Option (List Char × List Char)
  | [] => none
  | c :: rest =>
    if c = sep then some ([], rest)
    else
      match splitOnceChars sep rest with
      | some (a, b) => some (c :: a, b)
      | none => none

/-- Python `s.split(sep, 1)` restricted to the case the code uses:
    `some (before, after)` when `sep` occurs in `s` (split at the first
    occurrence), `none` when it does not (so `sep in s` is `isSome`). -/
def pySplitOnce (sep : Char) (s : String) : Option (String × String) :=
  (splitOnceChars sep s.data).map (fun p => (⟨p.1⟩, ⟨p.2⟩))

/-- Whether `pre` is a prefix of `l` (Python `startswith`, on characters). -/
def chStarts : List Char → List Char → Bool
  | [], _ => true
  | _ :: _, [] => false
  | a :: as, b :: bs => a == b && chStarts as bs

/-- Whether `needle` occurs as a contiguous run inside `hay`
    (Python `in` on strings, on characters). -/
def chContains (needle : List Char) : List Char → Bool
  | [] => chStarts needle []
  | c :: rest => chStarts needle (c :: rest) || chContains needle rest

/-- Python `sub in s` for strings. -/
def strContains (s sub : String) : Bool := chContains sub.data s.data

/-- Python `s.startswith(pre)`. -/
def strStarts (s pre : String) : Bool := chStarts pre.data s.data

/-- Python truthiness of an `Optional[str]`: `None` and `""` are falsy. -/
def truthyOptStr : Option String → Bool
  | none => false
  | some s => s ≠ ""

/-- Python `dict` lookup on an insertion-ordered association list. -/
def dictGet {α : Type} (m : List (String × α)) (k : String) : Option α :=
  match m with
  | [] => none
  | (k1, v1) :: rest => if k1 = k then some v1 else dictGet rest k

/-- Python `dict` assignment: update in place if the key exists
    (keeping its position), otherwise append at the end. -/
def dictSet {α : Type} (m : List (String × α)) (k : String) (v : α) :
    List (String × α) :=
  match m with
  | [] => [(k, v)]
  | (k1, v1) :: rest =>
    if k1 = k then (k1, v) :: rest else (k1, v1) :: dictSet rest k v

/-- Python list slice `l[:stop]` with an `int` bound (negative bounds
    count from the end, out-of-range bounds are clamped). -/
def pySliceTo {α : Type} (l : List α) (stop : Int) : List α :=
  let n : Int := l.length
  let s : Int := if stop < 0 then max (n + stop) 0 else min stop n
  l.take s.toNat

/-- Python list slice `l[start:]` with an `int` bound. Note that
    `l[-0:]` is `l[0:]`, the whole list: `-0 = 0` on `Int` exactly as in
    Python. -/
def pySliceFrom {α : Type} (l : List α) (start : Int) : List α :=
  let n : Int := l.length
  let s : Int := if start < 0 then max (n + start) 0 else min start n
  l.drop s.toNat

/-- Python list indexing `l[i]` with an `int` index: negative indices
    count from the end; `none` models an `IndexError`. -/
def pyIndex {α : Type} (l : List α) (i : Int) : Option α :=
  if i < 0 then
    if 0 ≤ i + l.length then l.get? (i + l.length).toNat else none
  else l.get? i.toNat

/-- Python `list.insert(i, x)`: negative indices count from the end and
    out-of-range indices are clamped. -/
def pyInsert {α : Type} (l : List α) (i : Int) (x : α) : List α :=
  let n : Int := l.length
  let s : Int := if i < 0 then max (n + i) 0 else min i n
  l.take s.toNat ++ x :: l.drop s.toNat

/-- One observer notification (`notify_observers(change_type, data)`),
    with the payload fields the corresponding call site passes. -/
inductive MEvent where
  | name_changed (oldName newName : String)
  | value_changed (oldVal newVal : String)
  | position_changed (oldPos newPos : Int × Int)
  | parent_changed (oldParent newParent : Option String)
  | style_changed (key : String) (oldVal : Option String) (newVal : String)
  | size_changed_width (oldW newW otherHeight : Int)
  | size_changed_height (oldH newH otherWidth : Int)
  | size_changed_both (oldW newW oldH newH : Int)
  | grid_changed_flag (enabled : Bool)
  | grid_changed_size (oldSize newSize : Int)
  | element_added (id : String)
  | element_removed (id : String)
  | page_added (name : String)
  | page_removed (name : String)
  | waypoint_added (wp : Int × Int) (index : Option Int)
  | waypoint_removed (wp : Int × Int) (index : Int)
deriving DecidableEq

/-- State specific to `ShapeModel`. -/
structure ShapeData where
  shape_type : String
  width : Int
  height : Int
  rotation : Int
deriving DecidableEq

/-- State specific to `ConnectorModel`. -/
structure ConnData where
  source_id : Option String
  target_id : Option String
  waypoints : List (Int × Int)
deriving DecidableEq

/-- State specific to `GroupModel`. -/
structure GroupData where
  children_ids : List String
  collapsed : Bool
deriving DecidableEq

/-- The closed set of element variants. -/
inductive Variant where
  | shape (s : ShapeData)
  | connector (c : ConnData)
  | group (g : GroupData)
deriving DecidableEq

/-- State shared by every `ElementModel`, plus the variant payload. -/
structure Element where
  id : String
  value : String
  style : List (String × String)
  position : Int × Int
  parent_id : Option String
  variant : Variant
deriving DecidableEq

/-- The `value` property setter of `ElementModel`. -/
def Element.set_value (e : Element) (new_value : String) :
    Element × List MEvent :=
  if new_value ≠ e.value then
    ({ e with value := new_value }, [.value_changed e.value new_value])
  else (e, [])

/-- The `position` property setter of `ElementModel`. -/
def Element.set_position (e : Element) (new_position : Int × Int) :
    Element × List MEvent :=
  if new_position ≠ e.position then
    ({ e with position := new_position },
     [.position_changed e.position new_position])
  else (e, [])

/-- The `parent_id` property setter of `ElementModel`. -/
def Element.set_parent_id (e : Element) (parent_id : Option String) :
    Element × List MEvent :=
  if parent_id ≠ e.parent_id then
    ({ e with parent_id := parent_id },
     [.parent_changed e.parent_id parent_id])
  else (e, [])

/-- `ElementModel.set_style`: stores the value and notifies
    unconditionally (there is no equality guard in the source). -/
def Element.set_style (e : Element) (k v : String) : Element × List MEvent :=
  ({ e with style := dictSet e.style k v },
   [.style_changed k (dictGet e.style k) v])

/-- `ElementModel.get_style`. -/
def Element.get_style (e : Element) (k : String) : Option String :=
  dictGet e.style k

/-- The loop body of `ElementModel.apply_style_string`: for each token,
    apply `set_style(key.strip(), value.strip())` when the token contains
    `=` (split at the first `=`); tokens without `=` fall through. -/
def applyPairs (e : Element) : List String → Element × List MEvent
  | [] => (e, [])
  | p :: rest =>
    match pySplitOnce '=' p with
    | some (k, v) =>
      let r := e.set_style (pyStrip k) (pyStrip v)
      let r2 := applyPairs r.1 rest
      (r2.1, r.2 ++ r2.2)
    | none => applyPairs e rest

/-- `ElementModel.apply_style_string`: no-op on the empty (falsy) string,
    otherwise split on `;` and process each token. -/
def Element.apply_style_string (e : Element) (style_string : String) :
    Element × List MEvent :=
  if style_string = "" then (e, [])
  else applyPairs e (pySplit ';' style_string)

/-- `ElementModel.get_style_string`: join `key=value` in insertion order
    with `;`. -/
def Element.get_style_string (e : Element) : String :=
  String.intercalate ";" (e.style.map (fun kv => kv.1 ++ "=" ++ kv.2))

/-- `ShapeModel.__init__`: base state plus the six default style entries
    set in constructor order. -/
def shapeInit (element_id value shape_type : String) : Element :=
  { id := element_id
    value := value
    style :=
      dictSet (dictSet (dictSet (dictSet (dictSet (dictSet []
        "shape" shape_type) "whiteSpace" "wrap") "html" "1")
        "fillColor" "#ffffff") "strokeColor" "#000000") "strokeWidth" "1"
    position := (0, 0)
    parent_id := none
    variant := .shape { shape_type := shape_type, width := 100, height := 60,
                        rotation := 0 } }

/-- `ConnectorModel.__init__`: base state plus the seven default style
    entries set in constructor order. -/
def connInit (element_id value : String)
    (source_id target_id : Option String) : Element :=
  { id := element_id
    value := value
    style :=
      dictSet (dictSet (dictSet (dictSet (dictSet (dictSet (dictSet []
        "edgeStyle" "orthogonalEdgeStyle") "rounded" "0")
        "orthogonalLoop" "1") "jettySize" "auto") "html" "1")
        "strokeColor" "#000000") "strokeWidth" "1"
    position := (0, 0)
    parent_id := none
    variant := .connector { source_id := source_id, target_id := target_id,
                            waypoints := [] } }

/-- `GroupModel.__init__`: base state plus the four default style entries
    set in constructor order. -/
def groupInit (element_id value : String) : Element :=
  { id := element_id
    value := value
    style :=
      dictSet (dictSet (dictSet (dictSet []
        "group" "1") "fillColor" "none") "strokeColor" "#666666") "dashed" "1"
    position := (0, 0)
    parent_id := none
    variant := .group { children_ids := [], collapsed := false } }

/-- The `width` property setter of `ShapeModel` (non-shape variants have
    no such attribute; the catch-all arm is inert). -/
def Element.set_width (e : Element) (value : Int) : Element × List MEvent :=
  match e.variant with
  | .shape s =>
    if value ≠ s.width ∧ value > 0 then
      ({ e with variant := .shape { s with width := value } },
       [.size_changed_width s.width value s.height])
    else (e, [])
  | _ => (e, [])

/-- The `height` property setter of `ShapeModel`. -/
def Element.set_height (e : Element) (value : Int) : Element × List MEvent :=
  match e.variant with
  | .shape s =>
    if value ≠ s.height ∧ value > 0 then
      ({ e with variant := .shape { s with height := value } },
       [.size_changed_height s.height value s.width])
    else (e, [])
  | _ => (e, [])

/-- `ShapeModel.set_size`. -/
def Element.set_size (e : Element) (width height : Int) :
    Element × List MEvent :=
  match e.variant with
  | .shape s =>
    if (width ≠ s.width ∨ height ≠ s.height) ∧ width > 0 ∧ height > 0 then
      ({ e with variant := .shape { s with width := width, height := height } },
       [.size_changed_both s.width width s.height height])
    else (e, [])
  | _ => (e, [])

/-- `ConnectorModel.add_waypoint` (append when `index` is `None`,
    `list.insert` otherwise). -/
def Element.add_waypoint (e : Element) (x y : Int) (index : Option Int) :
    Element × List MEvent :=
  match e.variant with
  | .connector c =>
    let wps :=
      match index with
      | none => c.waypoints ++ [(x, y)]
      | some i => pyInsert c.waypoints i (x, y)
    ({ e with variant := .connector { c with waypoints := wps } },
     [.waypoint_added (x, y) index])
  | _ => (e, [])

/-- `ConnectorModel.remove_waypoint`: guarded by `0 <= index < len`,
    otherwise silently does nothing. -/
def Element.remove_waypoint (e : Element) (index : Int) :
    Element × List MEvent :=
  match e.variant with
  | .connector c =>
    if 0 ≤ index ∧ index < (c.waypoints.length : Int) then
      match c.waypoints.get? index.toNat with
      | some wp =>
        ({ e with variant :=
             .connector { c with waypoints := c.waypoints.eraseIdx index.toNat } },
         [.waypoint_removed wp index])
      | none => (e, [])
    else (e, [])
  | _ => (e, [])

/-- Copy a style dictionary onto an element with repeated `set_style`
    calls (the `for key, value in self._style.items()` loops of the
    `clone` methods); the clone has no observers, so the notifications
    are unobservable and dropped. -/
def foldSetStyle (e : Element) (ps : List (String × String)) : Element :=
  ps.foldl (fun acc kv => (acc.set_style kv.1 kv.2).1) e

/-- Append a list of waypoints with repeated `add_waypoint` calls. -/
def addWaypoints (e : Element) (wps : List (Int × Int)) : Element :=
  wps.foldl (fun acc wp => (acc.add_waypoint wp.1 wp.2 none).1) e

/-- `ConnectorModel.clone`: fresh connector with `_clone` appended to the
    element id and to each truthy endpoint id (a falsy endpoint — `None`
    or the empty string — becomes `None`), then position, parent, styles
    and waypoints copied over. On a non-connector variant Python would
    dispatch to that class's own clone; the catch-all arm is inert. -/
def ConnectorModel_clone (e : Element) : Element :=
  match e.variant with
  | .connector c =>
    let src : Option String :=
      match c.source_id with
      | some s => if s ≠ "" then some (s ++ "_clone") else none
      | none => none
    let tgt : Option String :=
      match c.target_id with
      | some s => if s ≠ "" then some (s ++ "_clone") else none
      | none => none
    let cl := connInit (e.id ++ "_clone") e.value src tgt
    let cl := (cl.set_position e.position).1
    let cl := (cl.set_parent_id e.parent_id).1
    let cl := foldSetStyle cl e.style
    addWaypoints cl c.waypoints
  | _ => e

/-- `PageModel` state. -/
structure PageModel where
  name : String
  elements : List Element
  grid_enabled : Bool
  grid_size : Int
deriving DecidableEq

/-- `PageModel.__init__`. -/
def pageInit (name : String) : PageModel :=
  { name := name, elements := [], grid_enabled := true, grid_size := 10 }

/-- The `name` property setter of `PageModel`. -/
def PageModel.set_name (p : PageModel) (value : String) :
    PageModel × List MEvent :=
  if value ≠ p.name then
    ({ p with name := value }, [.name_changed p.name value])
  else (p, [])

/-- The `grid_enabled` property setter of `PageModel`. -/
def PageModel.set_grid_enabled (p : PageModel) (value : Bool) :
    PageModel × List MEvent :=
  if value ≠ p.grid_enabled then
    ({ p with grid_enabled := value }, [.grid_changed_flag value])
  else (p, [])

/-- The `grid_size` property setter of `PageModel` (no-op unless the
    value changes and is positive). -/
def PageModel.set_grid_size (p : PageModel) (value : Int) :
    PageModel × List MEvent :=
  if value ≠ p.grid_size ∧ value > 0 then
    ({ p with grid_size := value }, [.grid_changed_size p.grid_size value])
  else (p, [])

/-- `PageModel.add_element` (membership is object identity in Python;
    the elements handled by the embedded code paths are pairwise
    distinct, so structural membership coincides with it). -/
def PageModel.add_element (p : PageModel) (e : Element) :
    PageModel × List MEvent :=
  if e ∈ p.elements then (p, [])
  else ({ p with elements := p.elements ++ [e] }, [.element_added e.id])

/-- `PageModel.remove_element`. -/
def PageModel.remove_element (p : PageModel) (e : Element) :
    PageModel × List MEvent :=
  if e ∈ p.elements then
    ({ p with elements := p.elements.erase e }, [.element_removed e.id])
  else (p, [])

/-- `DiagramModel` state (the metadata map is not touched by any claim
    and is omitted). -/
structure DiagramModel where
  name : String
  pages : List PageModel
deriving DecidableEq

/-- `DiagramModel.__init__`. -/
def diagInit (name : String) : DiagramModel := { name := name, pages := [] }

/-- The `name` property setter of `DiagramModel`. -/
def DiagramModel.set_name (d : DiagramModel) (value : String) :
    DiagramModel × List MEvent :=
  if value ≠ d.name then
    ({ d with name := value }, [.name_changed d.name value])
  else (d, [])

/-- `DiagramModel.add_page`. -/
def DiagramModel.add_page (d : DiagramModel) (p : PageModel) :
    DiagramModel × List MEvent :=
  if p ∈ d.pages then (d, [])
  else ({ d with pages := d.pages ++ [p] }, [.page_added p.name])

/-- `DiagramModel.remove_page`. -/
def DiagramModel.remove_page (d : DiagramModel) (p : PageModel) :
    DiagramModel × List MEvent :=
  if p ∈ d.pages then
    ({ d with pages := d.pages.erase p }, [.page_removed p.name])
  else (d, [])

/-- One event of the `CommandManager`'s observable behavior: a call into a
    command (`execute` / `undo` / `redo`) or a listener notification. -/
inductive CMEvent (C : Type) where
  | exec_call (c : C)
  | undo_call (c : C)
  | redo_call (c : C)
  | notified (kind : String) (c : C)
deriving DecidableEq

/-- `CommandManager` state: ordered history, cursor (`_position`, `-1`
    means none applied) and the retention bound. Commands are opaque
    values of type `C` (the engine never inspects them). -/
structure CMState (C : Type) where
  history : List C
  position : Int
  max_history : Int
deriving DecidableEq

/-- `CommandManager.__init__` (default bound 100). -/
def cmInit (C : Type) (max_history : Int) : CMState C :=
  { history := [], position := -1, max_history := max_history }

/-- `CommandManager.execute_command`: truncate the history after the
    cursor if the cursor is not at the end, run the command, append it,
    move the cursor to the last index, trim the history to the bound
    (`self._history[-self._max_history:]`), notify listeners. -/
def execute_command {C : Type} (s : CMState C) (c : C) :
    CMState C × List (CMEvent C) :=
  let hist :=
    if s.position < (s.history.length : Int) - 1 then
      pySliceTo s.history (s.position + 1)
    else s.history
  let hist2 := hist ++ [c]
  let pos2 : Int := (hist2.length : Int) - 1
  let final :=
    if (hist2.length : Int) > s.max_history then
      let trimmed := pySliceFrom hist2 (-s.max_history)
      ({ history := trimmed, position := (trimmed.length : Int) - 1,
         max_history := s.max_history } : CMState C)
    else { history := hist2, position := pos2, max_history := s.max_history }
  (final, [.exec_call c, .notified "execute" c])

/-- `CommandManager.undo`: failure (and no change) when the cursor is
    negative; otherwise undo the command at the cursor, decrement it and
    notify. The outer `none` models the `IndexError` Python would raise
    on a cursor beyond the end of the history. -/
def CMState.undo {C : Type} (s : CMState C) :
    Option (CMState C × Bool × List (CMEvent C)) :=
  if 0 ≤ s.position then
    match pyIndex s.history s.position with
    | some c =>
      some ({ s with position := s.position - 1 }, true,
            [.undo_call c, .notified "undo" c])
    | none => none
  else some (s, false, [])

/-- `CommandManager.redo`: failure (and no change) when the cursor is at
    the last history index; otherwise increment the cursor, redo the
    command now at the cursor and notify. -/
def CMState.redo {C : Type} (s : CMState C) :
    Option (CMState C × Bool × List (CMEvent C)) :=
  if s.position < (s.history.length : Int) - 1 then
    match pyIndex s.history (s.position + 1) with
    | some c =>
      some ({ s with position := s.position + 1 }, true,
            [.redo_call c, .notified "redo" c])
    | none => none
  else some (s, false, [])

/-- `CommandManager.can_undo`. -/
def CMState.can_undo {C : Type} (s : CMState C) : Bool := 0 ≤ s.position

/-- `CommandManager.can_redo`. -/
def CMState.can_redo {C : Type} (s : CMState C) : Bool :=
  s.position < (s.history.length : Int) - 1

/-- `CommandManager.clear_history`. -/
def CMState.clear_history {C : Type} (s : CMState C) : CMState C :=
  { s with history := [], position := -1 }

/-- State reached after `undo()` (identity on the unreachable
    `IndexError` case); projection used to chain scenario steps. -/
def undoState {C : Type} (s : CMState C) : CMState C :=
  match s.undo with
  | some (s2, _, _) => s2
  | none => s

/-- Whether `undo()` reports success. -/
def undoOk {C : Type} (s : CMState C) : Bool :=
  match s.undo with
  | some (_, b, _) => b
  | none => false

/-- Whether `redo()` reports success. -/
def redoOk {C : Type} (s : CMState C) : Bool :=
  match s.redo with
  | some (_, b, _) => b
  | none => false

/-- Structural content of an `mxGeometry` child: the four numeric
    attributes (absent attribute = `none`), the `relative` marker, and
    the `mxPoint` children the save path emits for waypoints. -/
structure Geometry where
  x : Option Int
  y : Option Int
  width : Option Int
  height : Option Int
  relative : Bool
  points : List (Int × Int)
deriving DecidableEq

/-- Structural content of an `mxCell` element: each drawio attribute the
    code reads or writes, `none` when absent. -/
structure MxCell where
  id : Option String
  parent : Option String
  value : Option String
  style : Option String
  vertex : Option String
  edge : Option String
  source : Option String
  target : Option String
  geometry : Option Geometry
deriving DecidableEq

/-- Structural content of the inner per-page XML document: its root tag,
    the `gridSize` attribute the save path emits (ignored by load), and
    the `mxCell` children of its `root` container (`none` when there is
    no `root` child). -/
structure GraphDoc where
  tag : String
  gridSize : Int
  root : Option (List MxCell)
deriving DecidableEq

/-- How a `diagram` element's text payload resolves: direct XML parse
    succeeds; direct parse fails but base64+inflate recovers a document;
    or both interpretations fail. The base64/deflate transport itself is
    abstracted as faithful. -/
inductive Payload where
  | direct (doc : GraphDoc)
  | compressed (doc : GraphDoc)
  | badContent
deriving DecidableEq

/-- One `diagram` child of the `mxfile` wrapper. Its `id` attribute is
    read into an unused local by load and regenerated by save, so it is
    not modelled. -/
structure DiagramNode where
  name : Option String
  payload : Payload
deriving DecidableEq

/-- Input to `load_drawio_file`: either the file could not be read or
    parsed at all (`ET.parse` raised), or it parsed to a root element
    with the given tag and `diagram` children. -/
inductive MxFileInput where
  | ioError
  | parsed (rootTag : String) (diagrams : List DiagramNode)
deriving DecidableEq

/-- `shape_type` extraction in the load path: when the literal `shape=`
    occurs in the style string, scan the `;`-tokens for the first one
    starting with `shape=` and take the text after the first `=`;
    otherwise default to `rectangle`. -/
def extractShapeType (style : String) : String :=
  if strContains style "shape=" then
    match (pySplit ';' style).find? (fun p => strStarts p "shape=") with
    | some p =>
      match pySplitOnce '=' p with
      | some kv => kv.2
      | none => "rectangle"
    | none => "rectangle"
  else "rectangle"

/-- The `x` attribute of an optional geometry element, defaulting to 0
    (`float(geometry_elem.get('x', '0')) if geometry_elem is not None
    else 0.0`). -/
def geomX (g? : Option Geometry) : Int :=
  match g? with
  | some g => g.x.getD 0
  | none => 0

/-- The `y` attribute of an optional geometry element, defaulting to 0. -/
def geomY (g? : Option Geometry) : Int :=
  match g? with
  | some g => g.y.getD 0
  | none => 0

/-- The `width` attribute of an optional geometry element, defaulting to
    0. -/
def geomW (g? : Option Geometry) : Int :=
  match g? with
  | some g => g.width.getD 0
  | none => 0

/-- The `height` attribute of an optional geometry element, defaulting
    to 0. -/
def geomH (g? : Option Geometry) : Int :=
  match g? with
  | some g => g.height.getD 0
  | none => 0

/-- The classification block of the load loop: an edge flag builds a
    Connector (reading the optional source/target attributes); otherwise
    a vertex flag builds a Group when the style contains the literal
    `group=1`, else a Shape whose size is applied only when both width
    and height are positive; a cell with neither flag yields nothing. -/
def classifyCell (element_id value style : String)
    (is_vertex is_edge : Bool) (width height : Int)
    (source target : Option String) : Option Element :=
  if is_edge then
    some (connInit element_id value source target)
  else if is_vertex then
    if strContains style "group=1" then some (groupInit element_id value)
    else
      let base := shapeInit element_id value (extractShapeType style)
      some (if width > 0 ∧ height > 0 then (base.set_size width height).1
            else base)
  else none

/-- The common decoration tail of the load loop: set position, parent id
    and the full style string on the freshly classified element. -/
def decorateCell (el : Element) (x y : Int) (parent_id style : String) :
    Element :=
  (((el.set_position (x, y)).1.set_parent_id
      (some parent_id)).1.apply_style_string style).1

/-- The per-`mxCell` body of the load loop: skip cells with a missing or
    empty id and the two reserved infrastructure cells `0` and `1`;
    classify the cell, then decorate it. Returns the key/value pair
    stored into the `elements` dict, or `none` when the cell is
    skipped. -/
def processCell (cell : MxCell) : Option (String × Element) :=
  if cell.id.getD "" = "" then none
  else if cell.id.getD "" = "0" ∨ cell.id.getD "" = "1" then none
  else
    match classifyCell (cell.id.getD "") (cell.value.getD "")
        (cell.style.getD "")
        (cell.vertex.getD "0" == "1") (cell.edge.getD "0" == "1")
        (geomW cell.geometry) (geomH cell.geometry)
        cell.source cell.target with
    | none => none
    | some el =>
      some (cell.id.getD "",
            decorateCell el (geomX cell.geometry) (geomY cell.geometry)
              (cell.parent.getD "1") (cell.style.getD ""))

/-- First load pass: fold the cells into the id-keyed `elements` dict
    (insertion ordered, duplicate ids overwrite in place). -/
def buildElements (cells : List MxCell) : List (String × Element) :=
  cells.foldl
    (fun acc cell =>
      match processCell cell with
      | some kvp => dictSet acc kvp.1 kvp.2
      | none => acc)
    []

/-- Load one `diagram` child into a `PageModel`: resolve the payload
    (a direct parse with a wrong tag raises a `ValueError` that the
    inner `except ET.ParseError` does not catch, so the fallback is not
    attempted), check the recovered tag, find the `root` container, then
    build the elements and add them to a fresh page in dict order. -/
def loadPage (node : DiagramNode) : Except String PageModel :=
  let page_name := node.name.getD "Page"
  let docE : Except String GraphDoc :=
    match node.payload with
    | .direct d =>
      if d.tag ≠ "mxGraphModel" then
        Except.error "Content is not mxGraphModel"
      else Except.ok d
    | .compressed d => Except.ok d
    | .badContent => Except.error "Error decompressing diagram content"
  match docE with
  | .error e => Except.error e
  | .ok doc =>
    if doc.tag ≠ "mxGraphModel" then
      Except.error "Content is not mxGraphModel"
    else
      match doc.root with
      | none => Except.error "No root element found in diagram"
      | some cells =>
        Except.ok ((buildElements cells).foldl
          (fun p kv => (p.add_element kv.2).1) (pageInit page_name))

/-- The page loop of the load body: pages are loaded in document order
    and the first failing page aborts the whole load. -/
def loadPages : List DiagramNode → Except String (List PageModel)
  | [] => Except.ok []
  | n :: rest =>
    match loadPage n with
    | .error e => Except.error e
    | .ok p =>
      match loadPages rest with
      | .error e => Except.error e
      | .ok ps => Except.ok (p :: ps)

/-- The body of `FileService.load_drawio_file` (everything inside the
    outer `try`). The diagram name is the file's base name without its
    last extension; path handling is abstracted and the derived name is
    taken as a parameter. -/
def loadBody (diagram_name : String) (input : MxFileInput) :
    Except String DiagramModel :=
  match input with
  | .ioError => Except.error "parse failure"
  | .parsed rootTag diagrams =>
    if rootTag ≠ "mxfile" then
      Except.error "Invalid drawio file: root is not mxfile"
    else
      match loadPages diagrams with
      | .error e => Except.error e
      | .ok pages =>
        Except.ok (pages.foldl (fun d p => (d.add_page p).1)
          (diagInit diagram_name))

/-- `FileService.load_drawio_file`: the outer `try/except Exception`
    converts every internal fault into a `None` result. -/
def load_drawio_file (diagram_name : String) (input : MxFileInput) :
    Option DiagramModel :=
  match loadBody diagram_name input with
  | .ok d => some d
  | .error _ => none

/-- The `mxCell` the save path emits for one element: id, value,
    serialized style, parent (falsy parent id becomes `1`), then the
    variant-specific attributes — shapes get `vertex=1` and a full
    geometry, connectors get `edge=1`, truthy endpoint attributes and a
    relative geometry holding one `mxPoint` per waypoint, groups get
    `vertex=1` and a geometry with the fixed 120×60 size. -/
def saveCellOf (e : Element) : MxCell :=
  let base : MxCell :=
    { id := some e.id
      parent := some (match e.parent_id with
        | some p => if p ≠ "" then p else "1"
        | none => "1")
      value := some e.value
      style := some e.get_style_string
      vertex := none, edge := none, source := none, target := none
      geometry := none }
  match e.variant with
  | .shape s =>
    { base with
      vertex := some "1"
      geometry := some { x := some e.position.1, y := some e.position.2,
                         width := some s.width, height := some s.height,
                         relative := false, points := [] } }
  | .connector c =>
    { base with
      edge := some "1"
      source := match c.source_id with
        | some s => if s ≠ "" then some s else none
        | none => none
      target := match c.target_id with
        | some s => if s ≠ "" then some s else none
        | none => none
      geometry := some { x := none, y := none, width := none, height := none,
                         relative := true, points := c.waypoints } }
  | .group _ =>
    { base with
      vertex := some "1"
      geometry := some { x := some e.position.1, y := some e.position.2,
                         width := some 120, height := some 60,
                         relative := false, points := [] } }

/-- The inner per-page document the save path builds: tag
    `mxGraphModel`, the page's grid size, and the two reserved cells
    followed by one cell per element in page order. -/
def saveGraphDoc (p : PageModel) : GraphDoc :=
  { tag := "mxGraphModel"
    gridSize := p.grid_size
    root := some
      ({ id := some "0", parent := none, value := none, style := none,
         vertex := none, edge := none, source := none, target := none,
         geometry := none } ::
       { id := some "1", parent := some "0", value := none, style := none,
         vertex := none, edge := none, source := none, target := none,
         geometry := none } ::
       p.elements.map saveCellOf) }

/-- The file structure `save_drawio_file` writes: the `mxfile` wrapper
    with one `diagram` child per page. The inner document is deflated
    with a zlib header and base64-encoded, so on reload the direct XML
    parse of the payload fails and the decompression fallback recovers
    the document: the payload resolves as `compressed`. -/
def buildMxFile (d : DiagramModel) : MxFileInput :=
  .parsed "mxfile"
    (d.pages.map (fun p =>
      { name := some p.name, payload := .compressed (saveGraphDoc p) }))

/-- The body of `FileService.save_drawio_file` (everything inside the
    outer `try`): build the file structure, then write it to disk. The
    write is abstracted as an externally supplied outcome. -/
def saveBody (d : DiagramModel) (writeResult : Except String Unit) :
    Except String MxFileInput :=
  let file := buildMxFile d
  match writeResult with
  | .error e => Except.error e
  | .ok _ => Except.ok file

/-- `FileService.save_drawio_file`: the outer `try/except Exception`
    converts every internal fault into a `False` result. -/
def save_drawio_file (d : DiagramModel) (writeResult : Except String Unit) :
    Bool :=
  match saveBody d writeResult with
  | .ok _ => true
  | .error _ => false

/-- Save followed by load (the round-trip of the claims), with a
    successful disk write. -/
def roundTrip (diagram_name : String) (d : DiagramModel) :
    Option DiagramModel :=
  load_drawio_file diagram_name (buildMxFile d)

/-- `AddShapeCommand.execute` (`controller/diagram_controller.py`). -/
def AddShapeCommand_execute (page : PageModel) (shape : Element) :
    PageModel × List MEvent :=
  page.add_element shape

/-- `AddShapeCommand.undo`. -/
def AddShapeCommand_undo (page : PageModel) (shape : Element) :
    PageModel × List MEvent :=
  page.remove_element shape

/-- `RemoveElementCommand.execute`. -/
def RemoveElementCommand_execute (page : PageModel) (element : Element) :
    PageModel × List MEvent :=
  page.remove_element element

/-- `RemoveElementCommand.undo`. -/
def RemoveElementCommand_undo (page : PageModel) (element : Element) :
    PageModel × List MEvent :=
  page.add_element element

/-- `MoveElementCommand.execute` (`new_position` is captured at command
    construction). -/
def MoveElementCommand_execute (element : Element)
    (new_position : Int × Int) : Element × List MEvent :=
  element.set_position new_position

/-- `MoveElementCommand.undo` (`old_position` is captured at command
    construction). -/
def MoveElementCommand_undo (element : Element)
    (old_position : Int × Int) : Element × List MEvent :=
  element.set_position old_position

/-- `ResizeShapeCommand.execute`. -/
def ResizeShapeCommand_execute (shape : Element) (new_width new_height : Int) :
    Element × List MEvent :=
  shape.set_size new_width new_height

/-- `ResizeShapeCommand.undo`. -/
def ResizeShapeCommand_undo (shape : Element) (old_width old_height : Int) :
    Element × List MEvent :=
  shape.set_size old_width old_height

/-- Declarative reading of the style grammar as parsed by
    `apply_style_string`: the `;`-tokens that contain `=`, each split at
    its first `=` with both halves stripped. -/
def parseStyleSpec (s : String) : List (String × String) :=
  (pySplit ';' s).filterMap
    (fun tok => (pySplitOnce '=' tok).map
      (fun kv => (pyStrip kv.1, pyStrip kv.2)))

/-- Waypoint sequence of an element (empty for non-connectors). -/
def elemWaypoints (e : Element) : List (Int × Int) :=
  match e.variant with
  | .connector c => c.waypoints
  | _ => []

/-- Source id of an element (for connectors). -/
def connSource (e : Element) : Option String :=
  match e.variant with
  | .connector c => c.source_id
  | _ => none

/-- Target id of an element (for connectors). -/
def connTarget (e : Element) : Option String :=
  match e.variant with
  | .connector c => c.target_id
  | _ => none

/-- The size invariant of the data model: a shape's stored width and
    height are strictly positive (trivial for other variants). -/
def sizesPositive (e : Element) : Prop :=
  match e.variant with
  | .shape s => 0 < s.width ∧ 0 < s.height
  | _ => True

/-- Whether an `Except` computation succeeded. -/
def isOkE {ε α : Type} : Except ε α → Bool
  | .ok _ => true
  | .error _ => false

/-- A connector with no endpoints and one waypoint at `(1, 2)`. -/
def c10Connector : Element :=
  ((connInit "c" "" none none).add_waypoint 1 2 none).1

/-- A connector with endpoints `a`/`b` and one waypoint at `(5, 5)`. -/
def c1Connector : Element :=
  ((connInit "c1" "" (some "a") (some "b")).add_waypoint 5 5 none).1

/-- A one-page diagram holding `c1Connector`. -/
def c1Diagram : DiagramModel :=
  { name := "D"
    pages := [{ name := "Page 1", elements := [c1Connector],
                grid_enabled := true, grid_size := 10 }] }

/-- Writing back the value a key already holds leaves the dictionary
    unchanged. -/
theorem dictSet_self {α : Type} (m : List (String × α)) (k : String) (v : α)
    (h : dictGet m k = some v) : dictSet m k v = m := by
  induction m with
  | nil => simp [dictGet] at h
  | cons p rest ih =>
    obtain ⟨k1, v1⟩ := p
    by_cases hk : k1 = k
    · unfold dictGet at h
      rw [if_pos hk] at h
      injection h with h
      unfold dictSet
      rw [if_pos hk, h]
    · unfold dictGet at h
      rw [if_neg hk] at h
      unfold dictSet
      rw [if_neg hk, ih h]

/-- `set_style` does not change the variant payload. -/
theorem set_style_variant (e : Element) (k v : String) :
    (e.set_style k v).1.variant = e.variant := rfl

/-- `set_position` does not change the variant payload. -/
theorem set_position_variant (e : Element) (p : Int × Int) :
    (e.set_position p).1.variant = e.variant := by
  unfold Element.set_position
  split <;> rfl

/-- `set_parent_id` does not change the variant payload. -/
theorem set_parent_id_variant (e : Element) (p : Option String) :
    (e.set_parent_id p).1.variant = e.variant := by
  unfold Element.set_parent_id
  split <;> rfl

/-- `set_value` does not change the variant payload. -/
theorem set_value_variant (e : Element) (v : String) :
    (e.set_value v).1.variant = e.variant := by
  unfold Element.set_value
  split <;> rfl

/-- The `apply_style_string` loop does not change the variant payload. -/
theorem applyPairs_variant (toks : List String) (e : Element) :
    (applyPairs e toks).1.variant = e.variant := by
  induction toks generalizing e with
  | nil => rfl
  | cons p rest ih =>
    unfold applyPairs
    cases h : pySplitOnce '=' p with
    | none => simp [h, ih]
    | some kv => simp [h, ih, set_style_variant]

/-- `apply_style_string` does not change the variant payload. -/
theorem apply_style_string_variant (e : Element) (s : String) :
    (e.apply_style_string s).1.variant = e.variant := by
  unfold Element.apply_style_string
  split
  · rfl
  · exact applyPairs_variant _ e

/-- `set_position` does not change the element id. -/
theorem set_position_id (e : Element) (p : Int × Int) :
    (e.set_position p).1.id = e.id := by
  unfold Element.set_position
  split <;> rfl

/-- `set_parent_id` does not change the element id. -/
theorem set_parent_id_id (e : Element) (p : Option String) :
    (e.set_parent_id p).1.id = e.id := by
  unfold Element.set_parent_id
  split <;> rfl

/-- The style-copy loop does not change the variant payload. -/
theorem foldSetStyle_variant (ps : List (String × String)) (e : Element) :
    (foldSetStyle e ps).variant = e.variant := by
  induction ps generalizing e with
  | nil => rfl
  | cons p rest ih =>
    unfold foldSetStyle at ih ⊢
    simp [List.foldl_cons, ih, set_style_variant]

/-- `set_style` does not change the element id. -/
theorem set_style_id (e : Element) (k v : String) :
    (e.set_style k v).1.id = e.id := rfl

/-- The style-copy loop does not change the element id. -/
theorem foldSetStyle_id (ps : List (String × String)) (e : Element) :
    (foldSetStyle e ps).id = e.id := by
  induction ps generalizing e with
  | nil => rfl
  | cons p rest ih =>
    unfold foldSetStyle at ih ⊢
    simp [List.foldl_cons, ih, set_style_id]

/-- `add_waypoint` does not change the element id. -/
theorem add_waypoint_id (e : Element) (x y : Int) (i : Option Int) :
    (e.add_waypoint x y i).1.id = e.id := by
  rcases e with ⟨a, b, st, d, f, var⟩
  cases var <;> rfl

/-- `add_waypoint` does not change a connector's source id. -/
theorem add_waypoint_connSource (e : Element) (x y : Int) (i : Option Int) :
    connSource (e.add_waypoint x y i).1 = connSource e := by
  rcases e with ⟨a, b, st, d, f, var⟩
  cases var <;> rfl

/-- `add_waypoint` does not change a connector's target id. -/
theorem add_waypoint_connTarget (e : Element) (x y : Int) (i : Option Int) :
    connTarget (e.add_waypoint x y i).1 = connTarget e := by
  rcases e with ⟨a, b, st, d, f, var⟩
  cases var <;> rfl

/-- The waypoint-copy loop does not change the element id. -/
theorem addWaypoints_id (wps : List (Int × Int)) (e : Element) :
    (addWaypoints e wps).id = e.id := by
  induction wps generalizing e with
  | nil => rfl
  | cons p rest ih =>
    unfold addWaypoints at ih ⊢
    simp only [List.foldl_cons]
    rw [ih, add_waypoint_id]

/-- The waypoint-copy loop does not change a connector's source id. -/
theorem addWaypoints_connSource (wps : List (Int × Int)) (e : Element) :
    connSource (addWaypoints e wps) = connSource e := by
  induction wps generalizing e with
  | nil => rfl
  | cons p rest ih =>
    unfold addWaypoints at ih ⊢
    simp only [List.foldl_cons]
    rw [ih, add_waypoint_connSource]

/-- The waypoint-copy loop does not change a connector's target id. -/
theorem addWaypoints_connTarget (wps : List (Int × Int)) (e : Element) :
    connTarget (addWaypoints e wps) = connTarget e := by
  induction wps generalizing e with
  | nil => rfl
  | cons p rest ih =>
    unfold addWaypoints at ih ⊢
    simp only [List.foldl_cons]
    rw [ih, add_waypoint_connTarget]

/-- Elements with the same variant payload have the same source id. -/
theorem connSource_congr {e f : Element} (h : e.variant = f.variant) :
    connSource e = connSource f := by
  unfold connSource
  rw [h]

/-- Elements with the same variant payload have the same target id. -/
theorem connTarget_congr {e f : Element} (h : e.variant = f.variant) :
    connTarget e = connTarget f := by
  unfold connTarget
  rw [h]

/-- C1. For every Diagram built programmatically with any number of pages
    and any mix of Shape/Connector/Group elements (with styles and
    waypoints), save_drawio_file followed by load_drawio_file yields a
    Diagram with the same page count and order, the same element ids,
    positions, sizes, style key/value pairs, and the same waypoint
    sequence for every Connector. REFUTED at `c1Diagram`: the save path
    serializes each waypoint as an `mxPoint` child, but the load path
    constructs connectors without ever reading those children, so the
    round-tripped connector comes back with an empty waypoint sequence
    (page count, element id and style pairs do survive on this input). -/
theorem C1_roundtrip_drops_waypoints :
    elemWaypoints c1Connector = [(5, 5)] ∧
    (roundTrip "D" c1Diagram).map
      (fun d => d.pages.map (fun p => p.elements.map elemWaypoints)) =
      some [[[]]] ∧
    (roundTrip "D" c1Diagram).map
      (fun d => d.pages.map (fun p => p.elements.map Element.id)) =
      some [["c1"]] ∧
    (roundTrip "D" c1Diagram).map
      (fun d => d.pages.map (fun p => p.elements.map Element.style)) =
      some [[c1Connector.style]] := by
  refine ⟨by decide, by decide, by decide, by decide⟩

/-- The style of the element after the `apply_style_string` loop is the
    original style overwritten, in order, with the `=`-bearing tokens
    split at their first `=` and stripped. -/
theorem applyPairs_style_eq (toks : List String) (e : Element) :
    (applyPairs e toks).1.style =
      (toks.filterMap (fun tok => (pySplitOnce '=' tok).map
        (fun kv => (pyStrip kv.1, pyStrip kv.2)))).foldl
        (fun m kv => dictSet m kv.1 kv.2) e.style := by
  induction toks generalizing e with
  | nil => rfl
  | cons p rest ih =>
    unfold applyPairs
    cases h : pySplitOnce '=' p with
    | none => simp [h, ih]
    | some kv => simp [h, ih, Element.set_style]

/-- C2 (counterexample). Applying `fillColor=#ff0000;rounded` to a fresh
    shape does not produce the entry `rounded` → `1` the claim requires:
    the token without `=` is silently dropped by `apply_style_string`. -/
theorem C2_bare_flag_not_mapped :
    ¬ ((shapeInit "s1" "" "rectangle").apply_style_string
        "fillColor=#ff0000;rounded").1.get_style "rounded" = some "1" := by
  decide

/-- C2 (amended). Parsing a style string token by token maps a token
    containing `=` to the key/value pair split at the first `=` (with
    surrounding whitespace stripped); a token without `=` is ignored and
    contributes no entry. In particular `fillColor=#ff0000;rounded`
    applied to a fresh shape yields `fillColor` → `#ff0000` and no
    `rounded` entry at all. -/
theorem C2_style_tokens :
    (∀ (e : Element) (s : String),
       (e.apply_style_string s).1.style =
         (parseStyleSpec s).foldl (fun m kv => dictSet m kv.1 kv.2) e.style) ∧
    ((shapeInit "s1" "" "rectangle").apply_style_string
        "fillColor=#ff0000;rounded").1.get_style "fillColor" =
      some "#ff0000" ∧
    ((shapeInit "s1" "" "rectangle").apply_style_string
        "fillColor=#ff0000;rounded").1.get_style "rounded" = none := by
  refine ⟨?_, by decide, by decide⟩
  intro e s
  unfold Element.apply_style_string parseStyleSpec
  by_cases h : s = ""
  · subst h
    rw [if_pos rfl]
    rfl
  · rw [if_neg h]
    exact applyPairs_style_eq _ e

/-- C3 (counterexample). `set_style` has no equality guard: writing the
    value a key already holds (here `html` → `1` on a fresh shape) still
    issues a `style_changed` notification, contradicting the claim that
    equal-value mutations invoke no observer notification. -/
theorem C3_set_style_notifies_on_equal :
    (shapeInit "s1" "" "rectangle").get_style "html" = some "1" ∧
    ((shapeInit "s1" "" "rectangle").set_style "html" "1").2 =
      [MEvent.style_changed "html" (some "1") "1"] ∧
    ((shapeInit "s1" "" "rectangle").set_style "html" "1").2 ≠ [] := by
  refine ⟨by decide, by decide, by decide⟩

/-- C3 (amended). Assigning a value equal to the current one is a
    complete no-op (no state change, no notification) for the name,
    value, position, parent-id and grid setters; the size setters
    additionally treat any non-positive dimension as a no-op (as does
    the grid-size setter). `set_style` is the exception: it always
    stores and notifies, so an equal-value write leaves the state
    unchanged but still issues a `style_changed` notification. -/
theorem C3_equal_setters_noop :
    (∀ (d : DiagramModel) (v : String), v = d.name → d.set_name v = (d, [])) ∧
    (∀ (p : PageModel) (v : String), v = p.name → p.set_name v = (p, [])) ∧
    (∀ (p : PageModel) (b : Bool), b = p.grid_enabled →
       p.set_grid_enabled b = (p, [])) ∧
    (∀ (p : PageModel) (n : Int), n = p.grid_size →
       p.set_grid_size n = (p, [])) ∧
    (∀ (p : PageModel) (n : Int), n ≤ 0 → p.set_grid_size n = (p, [])) ∧
    (∀ (e : Element) (v : String), v = e.value → e.set_value v = (e, [])) ∧
    (∀ (e : Element) (q : Int × Int), q = e.position →
       e.set_position q = (e, [])) ∧
    (∀ (e : Element) (q : Option String), q = e.parent_id →
       e.set_parent_id q = (e, [])) ∧
    (∀ (e : Element) (s : ShapeData) (w : Int), e.variant = .shape s →
       w = s.width → e.set_width w = (e, [])) ∧
    (∀ (e : Element) (s : ShapeData) (n : Int), e.variant = .shape s →
       n = s.height → e.set_height n = (e, [])) ∧
    (∀ (e : Element) (s : ShapeData) (w n : Int), e.variant = .shape s →
       w = s.width → n = s.height → e.set_size w n = (e, [])) ∧
    (∀ (e : Element) (s : ShapeData) (w : Int), e.variant = .shape s →
       w ≤ 0 → e.set_width w = (e, [])) ∧
    (∀ (e : Element) (s : ShapeData) (n : Int), e.variant = .shape s →
       n ≤ 0 → e.set_height n = (e, [])) ∧
    (∀ (e : Element) (s : ShapeData) (w n : Int), e.variant = .shape s →
       w ≤ 0 ∨ n ≤ 0 → e.set_size w n = (e, [])) ∧
    (∀ (e : Element) (k v : String), e.get_style k = some v →
       e.set_style k v = (e, [MEvent.style_changed k (some v) v])) := by
  refine ⟨?_, ?_, ?_, ?_, ?_, ?_, ?_, ?_, ?_, ?_, ?_, ?_, ?_, ?_, ?_⟩
  · intro d v h
    subst h
    simp [DiagramModel.set_name]
  · intro p v h
    subst h
    simp [PageModel.set_name]
  · intro p b h
    subst h
    simp [PageModel.set_grid_enabled]
  · intro p n h
    subst h
    simp [PageModel.set_grid_size]
  · intro p n h
    unfold PageModel.set_grid_size
    rw [if_neg]
    intro hcon
    omega
  · intro e v h
    subst h
    simp [Element.set_value]
  · intro e q h
    subst h
    simp [Element.set_position]
  · intro e q h
    subst h
    simp [Element.set_parent_id]
  · intro e s w hvar h
    subst h
    unfold Element.set_width
    rw [hvar]
    simp
  · intro e s n hvar h
    subst h
    unfold Element.set_height
    rw [hvar]
    simp
  · intro e s w n hvar hw hn
    subst hw
    subst hn
    unfold Element.set_size
    rw [hvar]
    simp
  · intro e s w hvar hw
    have hcon : ¬ (w ≠ s.width ∧ w > 0) := fun hc => absurd hc.2 (by omega)
    unfold Element.set_width
    rw [hvar]
    simp [hcon]
  · intro e s n hvar hn
    have hcon : ¬ (n ≠ s.height ∧ n > 0) := fun hc => absurd hc.2 (by omega)
    unfold Element.set_height
    rw [hvar]
    simp [hcon]
  · intro e s w n hvar hwn
    have hcon : ¬ ((w ≠ s.width ∨ n ≠ s.height) ∧ w > 0 ∧ n > 0) := by
      intro hc
      rcases hwn with h | h
      · exact absurd hc.2.1 (by omega)
      · exact absurd hc.2.2 (by omega)
    unfold Element.set_size
    rw [hvar]
    simp [hcon]
  · intro e k v h
    unfold Element.set_style
    rw [show dictGet e.style k = some v from h, dictSet_self _ _ _ h]

/-- Witness for `C3_equal_setters_noop` at concrete inputs. -/
theorem C3_equal_setters_noop_witness :
    (diagInit "D").set_name "D" = (diagInit "D", []) ∧
    (shapeInit "s" "" "rectangle").set_width 0 =
      (shapeInit "s" "" "rectangle", []) ∧
    (shapeInit "s" "" "rectangle").set_style "html" "1" =
      (shapeInit "s" "" "rectangle",
       [MEvent.style_changed "html" (some "1") "1"]) := by
  obtain ⟨h1, -, -, -, -, -, -, -, -, -, -, h12, -, -, h15⟩ :=
    C3_equal_setters_noop
  exact ⟨h1 _ _ rfl, h12 _ ⟨"rectangle", 100, 60, 0⟩ _ rfl (by decide),
         h15 _ _ _ (by decide)⟩

/-- C9. `ConnectorModel.clone` appends the fixed suffix `_clone` to the
    clone's element id and to each endpoint id that is set (truthy); an
    unset endpoint stays unset; in particular the clone does not preserve
    the original endpoint references. -/
theorem C9_clone_appends_suffix :
    ∀ (e : Element) (c : ConnData), e.variant = .connector c →
      (ConnectorModel_clone e).id = e.id ++ "_clone" ∧
      (∀ s, c.source_id = some s → s ≠ "" →
        connSource (ConnectorModel_clone e) = some (s ++ "_clone")) ∧
      (c.source_id = none → connSource (ConnectorModel_clone e) = none) ∧
      (∀ s, c.target_id = some s → s ≠ "" →
        connTarget (ConnectorModel_clone e) = some (s ++ "_clone")) ∧
      (c.target_id = none → connTarget (ConnectorModel_clone e) = none) ∧
      (∀ s, c.source_id = some s → s ≠ "" →
        connSource (ConnectorModel_clone e) ≠ c.source_id) := by
  intro e c h
  rcases e with ⟨eid, ev, es, ep, epar, evar⟩
  dsimp at h
  subst h
  unfold ConnectorModel_clone
  dsimp only
  have hid : ∀ (x : Element) (wps : List (Int × Int))
      (ps : List (String × String)) (p : Int × Int) (q : Option String),
      (addWaypoints (foldSetStyle ((x.set_position p).1.set_parent_id q).1 ps)
        wps).id = x.id := by
    intro x wps ps p q
    rw [addWaypoints_id, foldSetStyle_id, set_parent_id_id, set_position_id]
  have hsrc : ∀ (x : Element) (wps : List (Int × Int))
      (ps : List (String × String)) (p : Int × Int) (q : Option String),
      connSource (addWaypoints
        (foldSetStyle ((x.set_position p).1.set_parent_id q).1 ps) wps) =
        connSource x := by
    intro x wps ps p q
    rw [addWaypoints_connSource,
        connSource_congr (foldSetStyle_variant _ _),
        connSource_congr (set_parent_id_variant _ _),
        connSource_congr (set_position_variant _ _)]
  have htgt : ∀ (x : Element) (wps : List (Int × Int))
      (ps : List (String × String)) (p : Int × Int) (q : Option String),
      connTarget (addWaypoints
        (foldSetStyle ((x.set_position p).1.set_parent_id q).1 ps) wps) =
        connTarget x := by
    intro x wps ps p q
    rw [addWaypoints_connTarget,
        connTarget_congr (foldSetStyle_variant _ _),
        connTarget_congr (set_parent_id_variant _ _),
        connTarget_congr (set_position_variant _ _)]
  refine ⟨by rw [hid]; rfl, ?_, ?_, ?_, ?_, ?_⟩
  · intro s hs hne
    rw [hsrc]
    simp [connSource, connInit, hs, hne]
  · intro hs
    rw [hsrc]
    simp [connSource, connInit, hs]
  · intro s hs hne
    rw [htgt]
    simp [connTarget, connInit, hs, hne]
  · intro hs
    rw [htgt]
    simp [connTarget, connInit, hs]
  · intro s hs hne
    rw [hsrc]
    simp only [connSource, connInit, hs]
    intro hcon
    have hcon2 : s ++ "_clone" = s := by
      rw [if_pos hne] at hcon
      injection hcon
    have hlen := congrArg String.length hcon2
    rw [String.length_append] at hlen
    have h6 : ("_clone" : String).length = 6 := by decide
    omega

/-- Witness for `C9_clone_appends_suffix` at a concrete connector. -/
theorem C9_clone_appends_suffix_witness :
    connSource (ConnectorModel_clone (connInit "c" "" (some "a") none)) =
      some ("a" ++ "_clone") ∧
    connTarget (ConnectorModel_clone (connInit "c" "" (some "a") none)) =
      none ∧
    (ConnectorModel_clone (connInit "c" "" (some "a") none)).id =
      (connInit "c" "" (some "a") none).id ++ "_clone" := by
  obtain ⟨h1, h2, -, -, h5, -⟩ :=
    C9_clone_appends_suffix (connInit "c" "" (some "a") none)
      ⟨some "a", none, []⟩ rfl
  exact ⟨h2 "a" rfl (by decide), h5 rfl, h1⟩

/-- C10. `remove_waypoint(index)` with an out-of-range integer index
    leaves the waypoint sequence unchanged and issues no notification;
    an in-range index removes exactly the waypoint at that index and
    notifies once. -/
theorem C10_remove_waypoint_guard :
    ∀ (e : Element) (c : ConnData) (i : Int), e.variant = .connector c →
      ((i < 0 ∨ (c.waypoints.length : Int) ≤ i) →
        e.remove_waypoint i = (e, [])) ∧
      (0 ≤ i → i < (c.waypoints.length : Int) →
        ∃ wp, c.waypoints.get? i.toNat = some wp ∧
          e.remove_waypoint i =
            ({ e with variant :=
                 .connector { c with
                   waypoints := c.waypoints.eraseIdx i.toNat } },
             [MEvent.waypoint_removed wp i])) := by
  intro e c i h
  rcases e with ⟨eid, ev, es, ep, epar, evar⟩
  dsimp at h
  subst h
  unfold Element.remove_waypoint
  dsimp only
  constructor
  · intro hout
    rw [if_neg]
    intro hcon
    rcases hcon with ⟨h0, hlt⟩
    rcases hout with h | h <;> omega
  · intro h0 hlt
    have hi : i.toNat < c.waypoints.length := by omega
    obtain ⟨wp, hwp⟩ : ∃ wp, c.waypoints.get? i.toNat = some wp :=
      ⟨c.waypoints.get ⟨i.toNat, hi⟩, List.get?_eq_get hi⟩
    refine ⟨wp, hwp, ?_⟩
    rw [if_pos ⟨h0, hlt⟩, hwp]

/-- Witness for `C10_remove_waypoint_guard` at a concrete connector. -/
theorem C10_remove_waypoint_guard_witness :
    (c10Connector.remove_waypoint 5 = (c10Connector, [])) ∧
    (∃ wp, ([((1 : Int), (2 : Int))]).get? (Int.toNat 0) = some wp ∧
      c10Connector.remove_waypoint 0 =
        ({ c10Connector with
             variant := .connector
               { source_id := none, target_id := none,
                 waypoints := ([((1 : Int), (2 : Int))]).eraseIdx (Int.toNat 0) } },
         [MEvent.waypoint_removed wp 0])) := by
  obtain ⟨hout, -⟩ :=
    C10_remove_waypoint_guard c10Connector ⟨none, none, [(1, 2)]⟩ 5 rfl
  obtain ⟨-, hin⟩ :=
    C10_remove_waypoint_guard c10Connector ⟨none, none, [(1, 2)]⟩ 0 rfl
  exact ⟨hout (by decide), hin (by decide) (by decide)⟩

/-- The two notifications `execute_command` issues, in call order: the
    `execute()` call on the command, then the listener notification. -/
theorem execute_command_events {C : Type} (s : CMState C) (c : C) :
    (execute_command s c).2 =
      [CMEvent.exec_call c, CMEvent.notified "execute" c] := rfl

/-- Immediately after `execute_command` the cursor is at the last
    history index (both the plain and the trimming branch set it so). -/
theorem execute_command_position {C : Type} (s : CMState C) (c : C) :
    (execute_command s c).1.position =
      ((execute_command s c).1.history.length : Int) - 1 := by
  unfold execute_command
  dsimp only
  split <;> split <;> rfl

/-- `execute_command` does not change the retention bound. -/
theorem execute_command_max {C : Type} (s : CMState C) (c : C) :
    (execute_command s c).1.max_history = s.max_history := by
  unfold execute_command
  dsimp only
  split <;> split <;> rfl

/-- The history after `execute_command`, written as one expression:
    truncate-after-cursor, append, then conditionally trim. -/
theorem execute_command_history_eq {C : Type} (s : CMState C) (c : C) :
    (execute_command s c).1.history =
      (if ((((if s.position < (s.history.length : Int) - 1
              then pySliceTo s.history (s.position + 1)
              else s.history) ++ [c]).length : Int) > s.max_history)
       then pySliceFrom ((if s.position < (s.history.length : Int) - 1
              then pySliceTo s.history (s.position + 1)
              else s.history) ++ [c]) (-s.max_history)
       else ((if s.position < (s.history.length : Int) - 1
              then pySliceTo s.history (s.position + 1)
              else s.history) ++ [c])) := by
  unfold execute_command
  dsimp only
  split <;> split <;> rfl

/-- For a positive `m`, the Python slice `l[-m:]` keeps at most `m`
    entries. -/
theorem pySliceFrom_neg_length {α : Type} (l : List α) (m : Int)
    (hm : 0 < m) : ((pySliceFrom l (-m)).length : Int) ≤ m := by
  unfold pySliceFrom
  dsimp only
  rw [if_pos (by omega : -m < (0 : Int))]
  rw [List.length_drop]
  rcases le_total ((l.length : Int) + -m) 0 with h | h
  · rw [max_eq_right h]
    omega
  · rw [max_eq_left h]
    omega

/-- For a positive `m` and a list no longer than `m`, the Python slice
    `l[-m:]` is the whole list. -/
theorem pySliceFrom_neg_all {α : Type} (l : List α) (m : Int)
    (hm : 0 < m) (hle : (l.length : Int) ≤ m) : pySliceFrom l (-m) = l := by
  unfold pySliceFrom
  dsimp only
  rw [if_pos (by omega : -m < (0 : Int))]
  rw [max_eq_right (by omega : (l.length : Int) + -m ≤ 0)]
  simp

/-- After the conditional trim step, the history fits the (positive)
    bound. -/
theorem trim_step_length {C : Type} (l2 : List C) (m : Int) (hm : 1 ≤ m) :
    (((if (l2.length : Int) > m then pySliceFrom l2 (-m) else l2).length :
        Int)) ≤ m := by
  split
  · exact pySliceFrom_neg_length l2 m (by omega)
  · next h => omega

/-- After any `execute_command` with a positive retention bound, the
    history length is at most the bound. -/
theorem execute_command_length_le {C : Type} (s : CMState C) (c : C)
    (hm : 1 ≤ s.max_history) :
    (((execute_command s c).1.history.length : Int)) ≤ s.max_history := by
  rw [execute_command_history_eq]
  exact trim_step_length _ _ hm

/-- Immediately after any `execute_command`, `redo()` fails and changes
    nothing: the cursor is already at the last history index. -/
theorem execute_then_redo_fails {C : Type} (s : CMState C) (c : C) :
    (execute_command s c).1.redo =
      some ((execute_command s c).1, false, []) := by
  have hpos := execute_command_position s c
  unfold CMState.redo
  rw [if_neg (by rw [hpos]; exact lt_irrefl _)]

/-- A non-negative in-range Python index hits an entry. -/
theorem pyIndex_nonneg {α : Type} (l : List α) (i : Int) (h0 : 0 ≤ i)
    (h1 : i < (l.length : Int)) : ∃ a, pyIndex l i = some a := by
  unfold pyIndex
  rw [if_neg (by omega : ¬ i < 0)]
  have hi : i.toNat < l.length := by omega
  exact ⟨l.get ⟨i.toNat, hi⟩, List.get?_eq_get hi⟩

/-- C4. When the cursor is not at the last history index,
    `execute_command(c)` discards every entry after the cursor, runs `c`
    and appends it (then applies the retention trim), after which
    `redo()` fails; concretely, from history `[A,B,C]` with the cursor
    at `C`, undoing twice and then executing `D` leaves history `[A,D]` —
    neither `B` nor `C` reachable — and `redo()` returns failure. -/
theorem C4_branch_discard :
    (∀ (C : Type) (s : CMState C) (c : C),
       s.position < (s.history.length : Int) - 1 →
         ((execute_command s c).2 =
            [CMEvent.exec_call c, CMEvent.notified "execute" c]) ∧
         ((execute_command s c).1.history =
            pySliceFrom (pySliceTo s.history (s.position + 1) ++ [c])
              (-s.max_history)) ∧
         ((execute_command s c).1.redo =
            some ((execute_command s c).1, false, []))) ∧
    (undoState (undoState (⟨["A", "B", "C"], 2, 100⟩ : CMState String)) =
       ⟨["A", "B", "C"], 0, 100⟩ ∧
     (execute_command
        (undoState (undoState (⟨["A", "B", "C"], 2, 100⟩ : CMState String)))
        "D").1.history = ["A", "D"] ∧
     "B" ∉ (execute_command
        (undoState (undoState (⟨["A", "B", "C"], 2, 100⟩ : CMState String)))
        "D").1.history ∧
     "C" ∉ (execute_command
        (undoState (undoState (⟨["A", "B", "C"], 2, 100⟩ : CMState String)))
        "D").1.history ∧
     redoOk (execute_command
        (undoState (undoState (⟨["A", "B", "C"], 2, 100⟩ : CMState String)))
        "D").1 = false) := by
  refine ⟨?_, by decide, by decide, by decide, by decide, by decide⟩
  intro C s c h
  refine ⟨execute_command_events s c, ?_, execute_then_redo_fails s c⟩
  rw [execute_command_history_eq]
  rw [if_pos h]
  split
  · rfl
  · next hle =>
    have hlen : 0 < (pySliceTo s.history (s.position + 1) ++ [c]).length := by
      rw [List.length_append]
      simp
    have hlen2 : (0 : Int) <
        ((pySliceTo s.history (s.position + 1) ++ [c]).length : Int) := by
      exact_mod_cast hlen
    exact (pySliceFrom_neg_all _ _ (by omega) (by omega)).symm

/-- Witness for `C4_branch_discard` at a concrete manager state. -/
theorem C4_branch_discard_witness :
    (execute_command (⟨["A", "B", "C"], 0, 100⟩ : CMState String) "D").1.history
      = pySliceFrom (pySliceTo ["A", "B", "C"] (0 + 1) ++ ["D"])
          (-(100 : Int)) :=
  ((C4_branch_discard.1 String ⟨["A", "B", "C"], 0, 100⟩ "D")
    (by decide)).2.1

/-- C5 (counterexample). With `max_history = 0` the retention bound is
    not enforced: Python's `history[-0:]` is the whole list, so after one
    `execute_command` the history holds 1 > 0 entries. -/
theorem C5_zero_bound_not_trimmed :
    (execute_command (cmInit String 0) "A").1.history = ["A"] ∧
    ¬ (((execute_command (cmInit String 0) "A").1.history.length : Int) ≤
        (execute_command (cmInit String 0) "A").1.max_history) := by
  exact ⟨by decide, by decide⟩

/-- C5 (amended). For every CommandManager whose retention bound
    `max_history` is at least 1, immediately after every
    `execute_command` the cursor equals history length − 1 and the
    history length is at most `max_history`; with `max_history = 2`,
    executing three commands retains exactly the last 2, the cursor is
    at the last index, and two undos succeed while a third fails. -/
theorem C5_bounded_retention :
    (∀ (C : Type) (s : CMState C) (c : C), 1 ≤ s.max_history →
       ((execute_command s c).1.position =
          ((execute_command s c).1.history.length : Int) - 1) ∧
       (((execute_command s c).1.history.length : Int) ≤ s.max_history)) ∧
    ((execute_command (execute_command (execute_command
        (cmInit String 2) "c1").1 "c2").1 "c3").1.history = ["c2", "c3"] ∧
     (execute_command (execute_command (execute_command
        (cmInit String 2) "c1").1 "c2").1 "c3").1.position = 1 ∧
     undoOk (execute_command (execute_command (execute_command
        (cmInit String 2) "c1").1 "c2").1 "c3").1 = true ∧
     undoOk (undoState (execute_command (execute_command (execute_command
        (cmInit String 2) "c1").1 "c2").1 "c3").1) = true ∧
     undoOk (undoState (undoState (execute_command (execute_command
        (execute_command (cmInit String 2) "c1").1 "c2").1 "c3").1)) =
       false) := by
  refine ⟨?_, by decide, by decide, by decide, by decide, by decide⟩
  intro C s c hm
  exact ⟨execute_command_position s c, execute_command_length_le s c hm⟩

/-- Witness for `C5_bounded_retention` at a concrete manager state. -/
theorem C5_bounded_retention_witness :
    ((execute_command (⟨["x"], 0, 1⟩ : CMState String) "y").1.position =
       ((execute_command (⟨["x"], 0, 1⟩ : CMState String) "y").1.history.length
         : Int) - 1) ∧
    (((execute_command (⟨["x"], 0, 1⟩ : CMState String) "y").1.history.length
        : Int) ≤ 1) :=
  C5_bounded_retention.1 String ⟨["x"], 0, 1⟩ "y" (by decide)

/-- C6. `undo()` fails and changes nothing exactly when the cursor is
    below 0, and otherwise undoes the command at the cursor, decrements
    the cursor, notifies listeners with event `undo` and succeeds;
    `redo()` fails and changes nothing exactly when the cursor is at the
    last history index, and otherwise increments the cursor, redoes the
    command now at the cursor, notifies listeners with event `redo` and
    succeeds. Stated over the reachable manager states
    (−1 ≤ cursor < history length). -/
theorem C6_undo_redo_semantics :
    ∀ (C : Type) (s : CMState C), -1 ≤ s.position →
      s.position < (s.history.length : Int) →
      ((s.position < 0 → s.undo = some (s, false, [])) ∧
       (0 ≤ s.position → ∃ c, pyIndex s.history s.position = some c ∧
          s.undo = some ({ s with position := s.position - 1 }, true,
                         [CMEvent.undo_call c, CMEvent.notified "undo" c])) ∧
       (s.position = (s.history.length : Int) - 1 →
          s.redo = some (s, false, [])) ∧
       (s.position < (s.history.length : Int) - 1 →
          ∃ c, pyIndex s.history (s.position + 1) = some c ∧
            s.redo = some ({ s with position := s.position + 1 }, true,
                           [CMEvent.redo_call c, CMEvent.notified "redo" c]))) := by
  intro C s h1 h2
  refine ⟨?_, ?_, ?_, ?_⟩
  · intro hneg
    unfold CMState.undo
    rw [if_neg (by omega)]
  · intro hpos
    obtain ⟨c, hc⟩ := pyIndex_nonneg s.history s.position hpos h2
    refine ⟨c, hc, ?_⟩
    unfold CMState.undo
    rw [if_pos hpos, hc]
  · intro heq
    unfold CMState.redo
    rw [if_neg (by omega)]
  · intro hlt
    obtain ⟨c, hc⟩ :=
      pyIndex_nonneg s.history (s.position + 1) (by omega) (by omega)
    refine ⟨c, hc, ?_⟩
    unfold CMState.redo
    rw [if_pos hlt, hc]

/-- Witness for `C6_undo_redo_semantics` at a concrete manager state. -/
theorem C6_undo_redo_semantics_witness :
    ∃ c, pyIndex (["A", "B"] : List String) (0 : Int) = some c ∧
      CMState.undo (⟨["A", "B"], 0, 10⟩ : CMState String) =
        some ({ (⟨["A", "B"], 0, 10⟩ : CMState String) with
                  position := 0 - 1 }, true,
              [CMEvent.undo_call c, CMEvent.notified "undo" c]) :=
  (C6_undo_redo_semantics String ⟨["A", "B"], 0, 10⟩ (by decide)
    (by decide)).2.1 (by decide)

/-- C7. Both codec entry points catch every internal fault at their
    boundary: whenever the load body fails, `load_drawio_file` returns
    `None` (and returns the loaded diagram otherwise); whenever the save
    body fails, `save_drawio_file` returns `False` (and `True`
    otherwise). No fault propagates to the caller. -/
theorem C7_codec_catches_faults :
    (∀ (dn : String) (input : MxFileInput),
       isOkE (loadBody dn input) = false → load_drawio_file dn input = none) ∧
    (∀ (dn : String) (input : MxFileInput) (d : DiagramModel),
       loadBody dn input = Except.ok d → load_drawio_file dn input = some d) ∧
    (∀ (d : DiagramModel) (w : Except String Unit),
       isOkE (saveBody d w) = false → save_drawio_file d w = false) ∧
    (∀ (d : DiagramModel) (w : Except String Unit) (f : MxFileInput),
       saveBody d w = Except.ok f → save_drawio_file d w = true) := by
  refine ⟨?_, ?_, ?_, ?_⟩
  · intro dn input h
    unfold load_drawio_file
    cases hb : loadBody dn input with
    | ok d =>
      rw [hb] at h
      exact absurd h (by simp [isOkE])
    | error e => rfl
  · intro dn input d h
    unfold load_drawio_file
    rw [h]
  · intro d w h
    unfold save_drawio_file
    cases hb : saveBody d w with
    | ok f =>
      rw [hb] at h
      exact absurd h (by simp [isOkE])
    | error e => rfl
  · intro d w f h
    unfold save_drawio_file
    rw [h]

/-- Witness for `C7_codec_catches_faults` at concrete inputs: an
    unreadable file loads as `None`, a failing disk write saves as
    `False`, and a well-formed round trip succeeds. -/
theorem C7_codec_catches_faults_witness :
    load_drawio_file "f" MxFileInput.ioError = none ∧
    save_drawio_file (diagInit "D") (Except.error "disk full") = false ∧
    save_drawio_file (diagInit "D") (Except.ok ()) = true := by
  obtain ⟨h1, -, h3, h4⟩ := C7_codec_catches_faults
  exact ⟨h1 "f" MxFileInput.ioError (by decide),
         h3 (diagInit "D") (Except.error "disk full") (by decide),
         h4 (diagInit "D") (Except.ok ()) (buildMxFile (diagInit "D"))
           rfl⟩

/-- The size invariant only depends on the variant payload. -/
theorem sizesPositive_congr {e f : Element} (h : e.variant = f.variant) :
    sizesPositive e = sizesPositive f := by
  unfold sizesPositive
  rw [h]

/-- The `width` setter preserves the size invariant. -/
theorem sizes_set_width (e : Element) (w : Int) (h : sizesPositive e) :
    sizesPositive (e.set_width w).1 := by
  rcases e with ⟨a, b, st, d, f, var⟩
  cases var with
  | shape s =>
    unfold Element.set_width
    dsimp only
    split
    · next hc => exact ⟨hc.2, h.2⟩
    · exact h
  | connector c => exact h
  | group g => exact h

/-- The `height` setter preserves the size invariant. -/
theorem sizes_set_height (e : Element) (n : Int) (h : sizesPositive e) :
    sizesPositive (e.set_height n).1 := by
  rcases e with ⟨a, b, st, d, f, var⟩
  cases var with
  | shape s =>
    unfold Element.set_height
    dsimp only
    split
    · next hc => exact ⟨h.1, hc.2⟩
    · exact h
  | connector c => exact h
  | group g => exact h

/-- `set_size` preserves the size invariant. -/
theorem sizes_set_size (e : Element) (w n : Int) (h : sizesPositive e) :
    sizesPositive (e.set_size w n).1 := by
  rcases e with ⟨a, b, st, d, f, var⟩
  cases var with
  | shape s =>
    unfold Element.set_size
    dsimp only
    split
    · next hc => exact ⟨hc.2.1, hc.2.2⟩
    · exact h
  | connector c => exact h
  | group g => exact h

/-- Membership after `add_element`: the element was already on the page
    or is the one just added. -/
theorem add_element_mem (p : PageModel) (e x : Element)
    (hx : x ∈ (p.add_element e).1.elements) : x ∈ p.elements ∨ x = e := by
  unfold PageModel.add_element at hx
  split at hx
  · exact Or.inl hx
  · dsimp only at hx
    rcases List.mem_append.mp hx with h | h
    · exact Or.inl h
    · exact Or.inr (List.mem_singleton.mp h)

/-- Membership after `remove_element`: only elements of the original
    page remain. -/
theorem remove_element_mem (p : PageModel) (e x : Element)
    (hx : x ∈ (p.remove_element e).1.elements) : x ∈ p.elements := by
  unfold PageModel.remove_element at hx
  split at hx
  · exact List.mem_of_mem_erase hx
  · exact hx

/-- `add_element` does not change the grid size. -/
theorem add_element_grid (p : PageModel) (e : Element) :
    (p.add_element e).1.grid_size = p.grid_size := by
  unfold PageModel.add_element
  split <;> rfl

/-- The element-adding loop of the load path does not change the grid
    size. -/
theorem foldl_addkv_grid (l : List (String × Element)) (p : PageModel) :
    (l.foldl (fun q kv => (q.add_element kv.2).1) p).grid_size =
      p.grid_size := by
  induction l generalizing p with
  | nil => rfl
  | cons a rest ih =>
    simp only [List.foldl_cons]
    rw [ih, add_element_grid]

/-- Membership after the element-adding loop of the load path. -/
theorem foldl_addkv_mem (l : List (String × Element)) (p : PageModel)
    (x : Element)
    (hx : x ∈ (l.foldl (fun q kv => (q.add_element kv.2).1) p).elements) :
    x ∈ p.elements ∨ ∃ kv ∈ l, x = kv.2 := by
  induction l generalizing p with
  | nil => exact Or.inl hx
  | cons a rest ih =>
    simp only [List.foldl_cons] at hx
    rcases ih _ hx with h | ⟨kv, hkv, hx2⟩
    · rcases add_element_mem _ _ _ h with h2 | h2
      · exact Or.inl h2
      · exact Or.inr ⟨a, by simp, h2⟩
    · exact Or.inr ⟨kv, by simp [hkv], hx2⟩

/-- Membership after a `dictSet`: the pair was already present or is the
    one just written. -/
theorem mem_dictSet {α : Type} (m : List (String × α)) (k : String) (v : α)
    (x : String × α) (hx : x ∈ dictSet m k v) : x ∈ m ∨ x = (k, v) := by
  induction m with
  | nil =>
    unfold dictSet at hx
    exact Or.inr (List.mem_singleton.mp hx)
  | cons p rest ih =>
    obtain ⟨k1, v1⟩ := p
    unfold dictSet at hx
    by_cases hk : k1 = k
    · rw [if_pos hk] at hx
      rcases List.mem_cons.mp hx with h | h
      · subst hk
        exact Or.inr (by rw [h])
      · exact Or.inl (List.mem_cons_of_mem _ h)
    · rw [if_neg hk] at hx
      rcases List.mem_cons.mp hx with h | h
      · exact Or.inl (by simp [h])
      · rcases ih h with h2 | h2
        · exact Or.inl (List.mem_cons_of_mem _ h2)
        · exact Or.inr h2

/-- Every entry of the `elements` dict built by the first load pass is
    the output of `processCell` on some cell. -/
theorem foldl_dict_mem (cells : List MxCell) (acc : List (String × Element))
    (x : String × Element)
    (hx : x ∈ cells.foldl
      (fun acc cell =>
        match processCell cell with
        | some kvp => dictSet acc kvp.1 kvp.2
        | none => acc) acc) :
    x ∈ acc ∨ ∃ cell, processCell cell = some x := by
  induction cells generalizing acc with
  | nil => exact Or.inl hx
  | cons cl rest ih =>
    simp only [List.foldl_cons] at hx
    rcases ih _ hx with h | h
    · cases hp : processCell cl with
      | none =>
        rw [hp] at h
        exact Or.inl h
      | some kvp =>
        obtain ⟨ke, ve⟩ := kvp
        rw [hp] at h
        rcases mem_dictSet _ _ _ _ h with h2 | h2
        · exact Or.inl h2
        · refine Or.inr ⟨cl, ?_⟩
          rw [hp, h2]
    · exact Or.inr h

/-- Decoration does not change the variant payload. -/
theorem decorateCell_variant (el : Element) (x y : Int)
    (parent_id style : String) :
    (decorateCell el x y parent_id style).variant = el.variant := by
  unfold decorateCell
  rw [apply_style_string_variant, set_parent_id_variant,
      set_position_variant]

/-- Every element the classification block produces satisfies the size
    invariant: connectors and groups trivially, shapes because
    construction yields 100×60 and the only size mutation is the guarded
    `set_size`. -/
theorem classifyCell_sizes (element_id value style : String)
    (is_vertex is_edge : Bool) (width height : Int)
    (source target : Option String) (el0 : Element)
    (h : classifyCell element_id value style is_vertex is_edge width height
      source target = some el0) : sizesPositive el0 := by
  unfold classifyCell at h
  split at h
  · injection h with h2
    rw [← h2]
    exact trivial
  · split at h
    · split at h
      · injection h with h2
        rw [← h2]
        exact trivial
      · dsimp only at h
        injection h with h2
        rw [← h2]
        split
        · exact sizes_set_size _ _ _
            ⟨(by decide : (0 : Int) < 100), (by decide : (0 : Int) < 60)⟩
        · exact ⟨(by decide : (0 : Int) < 100), (by decide : (0 : Int) < 60)⟩
    · exact absurd h (by simp)

/-- Every element `processCell` produces satisfies the size invariant. -/
theorem processCell_sizes (cell : MxCell) (eid : String) (el : Element)
    (h : processCell cell = some (eid, el)) : sizesPositive el := by
  unfold processCell at h
  split at h
  · exact absurd h (by simp)
  · split at h
    · exact absurd h (by simp)
    · split at h
      · exact absurd h (by simp)
      · next el0 heq =>
        simp only [Option.some.injEq, Prod.mk.injEq] at h
        obtain ⟨-, h2⟩ := h
        rw [← h2]
        rw [sizesPositive_congr (decorateCell_variant el0 _ _ _ _)]
        exact classifyCell_sizes _ _ _ _ _ _ _ _ _ _ heq

/-- A page produced by `loadPage` has the constructor's positive grid
    size and only elements produced by `processCell`, all satisfying the
    size invariant. -/
theorem loadPage_grid_and_sizes (node : DiagramNode) (p : PageModel)
    (h : loadPage node = Except.ok p) :
    0 < p.grid_size ∧ ∀ x ∈ p.elements, sizesPositive x := by
  unfold loadPage at h
  dsimp only at h
  split at h
  · exact absurd h (by simp)
  · next doc hdoc =>
    split at h
    · exact absurd h (by simp)
    · split at h
      · exact absurd h (by simp)
      · next cells hroot =>
        injection h with h2
        subst h2
        constructor
        · rw [foldl_addkv_grid]
          exact (by decide : (0 : Int) < 10)
        · intro x hx
          rcases foldl_addkv_mem _ _ _ hx with hmem | ⟨kv, hkv, hx2⟩
          · exact absurd hmem (by simp [pageInit])
          · subst hx2
            unfold buildElements at hkv
            rcases foldl_dict_mem _ _ _ hkv with hmem | ⟨cl, hcl⟩
            · exact absurd hmem (by simp)
            · exact processCell_sizes cl kv.1 kv.2 (by rw [hcl])

/-- C8. Shape width/height and page grid size are strictly positive
    after construction and stay strictly positive under every operation:
    the `width`/`height` setters, `set_size` and the grid-size setter
    silently reject non-positive values (leaving the stored value
    unchanged), the move/resize commands go through those same guarded
    setters, and every element or page produced by the codec load
    satisfies the invariant. -/
theorem C8_sizes_always_positive :
    (∀ a b t, sizesPositive (shapeInit a b t)) ∧
    (∀ nm, 0 < (pageInit nm).grid_size) ∧
    (∀ (e : Element) (w : Int), sizesPositive e →
       sizesPositive (e.set_width w).1) ∧
    (∀ (e : Element) (n : Int), sizesPositive e →
       sizesPositive (e.set_height n).1) ∧
    (∀ (e : Element) (w n : Int), sizesPositive e →
       sizesPositive (e.set_size w n).1) ∧
    (∀ (e : Element) (s : ShapeData) (w : Int), e.variant = .shape s →
       w ≤ 0 → (e.set_width w).1 = e) ∧
    (∀ (e : Element) (s : ShapeData) (n : Int), e.variant = .shape s →
       n ≤ 0 → (e.set_height n).1 = e) ∧
    (∀ (e : Element) (s : ShapeData) (w n : Int), e.variant = .shape s →
       w ≤ 0 ∨ n ≤ 0 → (e.set_size w n).1 = e) ∧
    (∀ (p : PageModel) (n : Int), n ≤ 0 → (p.set_grid_size n).1 = p) ∧
    (∀ (p : PageModel) (n : Int), 0 < p.grid_size →
       0 < (p.set_grid_size n).1.grid_size) ∧
    (∀ (e : Element) (q : Int × Int), sizesPositive e →
       sizesPositive (MoveElementCommand_execute e q).1) ∧
    (∀ (e : Element) (w n : Int), sizesPositive e →
       sizesPositive (ResizeShapeCommand_execute e w n).1) ∧
    (∀ (e : Element) (w n : Int), sizesPositive e →
       sizesPositive (ResizeShapeCommand_undo e w n).1) ∧
    (∀ (p : PageModel) (e : Element),
       (∀ x ∈ p.elements, sizesPositive x) → sizesPositive e →
       ∀ x ∈ (AddShapeCommand_execute p e).1.elements, sizesPositive x) ∧
    (∀ (p : PageModel) (e : Element),
       (∀ x ∈ p.elements, sizesPositive x) →
       ∀ x ∈ (RemoveElementCommand_execute p e).1.elements,
         sizesPositive x) ∧
    (∀ (cell : MxCell) (eid : String) (el : Element),
       processCell cell = some (eid, el) → sizesPositive el) ∧
    (∀ (node : DiagramNode) (p : PageModel), loadPage node = Except.ok p →
       0 < p.grid_size ∧ ∀ x ∈ p.elements, sizesPositive x) := by
  refine ⟨?_, ?_, sizes_set_width, sizes_set_height, sizes_set_size,
          ?_, ?_, ?_, ?_, ?_, ?_, ?_, ?_, ?_, ?_,
          processCell_sizes, loadPage_grid_and_sizes⟩
  · intro a b t
    exact ⟨(by decide : (0 : Int) < 100), (by decide : (0 : Int) < 60)⟩
  · intro nm
    exact (by decide : (0 : Int) < 10)
  · intro e s w hvar hw
    have hcon : ¬ (w ≠ s.width ∧ w > 0) := fun hc => absurd hc.2 (by omega)
    unfold Element.set_width
    rw [hvar]
    simp [hcon]
  · intro e s n hvar hn
    have hcon : ¬ (n ≠ s.height ∧ n > 0) := fun hc => absurd hc.2 (by omega)
    unfold Element.set_height
    rw [hvar]
    simp [hcon]
  · intro e s w n hvar hwn
    have hcon : ¬ ((w ≠ s.width ∨ n ≠ s.height) ∧ w > 0 ∧ n > 0) := by
      intro hc
      rcases hwn with h | h
      · exact absurd hc.2.1 (by omega)
      · exact absurd hc.2.2 (by omega)
    unfold Element.set_size
    rw [hvar]
    simp [hcon]
  · intro p n hn
    have hcon : ¬ (n ≠ p.grid_size ∧ n > 0) := fun hc => absurd hc.2 (by omega)
    unfold PageModel.set_grid_size
    rw [if_neg hcon]
  · intro p n hp
    unfold PageModel.set_grid_size
    split
    · next hc => exact hc.2
    · exact hp
  · intro e q h
    unfold MoveElementCommand_execute
    rw [sizesPositive_congr (set_position_variant e q)]
    exact h
  · intro e w n h
    exact sizes_set_size e w n h
  · intro e w n h
    exact sizes_set_size e w n h
  · intro p e hall he x hx
    rcases add_element_mem p e x hx with h | h
    · exact hall x h
    · rw [h]
      exact he
  · intro p e hall x hx
    exact hall x (remove_element_mem p e x hx)

/-- Witness for `C8_sizes_always_positive` at concrete inputs. -/
theorem C8_sizes_always_positive_witness :
    sizesPositive ((shapeInit "s" "" "rectangle").set_width (-5)).1 ∧
    ((shapeInit "s" "" "rectangle").set_width (-5)).1 =
      shapeInit "s" "" "rectangle" ∧
    ((pageInit "P").set_grid_size 0).1 = pageInit "P" := by
  obtain ⟨h1, -, h3, -, -, h6, -, -, h9, -⟩ := C8_sizes_always_positive
  exact ⟨h3 _ _ (h1 "s" "" "rectangle"),
         h6 _ ⟨"rectangle", 100, 60, 0⟩ _ rfl (by decide),
         h9 _ _ (by decide)⟩

end PyDiagram
